import Mathlib

/-!
# Order delivery API

A shallow embedding of the order delivery service: the data model of
`models/models.go`, the persistence functions of `database/database.go` and the
request handlers of `handlers/handlers.go`, followed by the properties proved
about them.

Conventions of the embedding.

* `float64` amounts range over an arbitrary carrier `F` that only has a zero, an
  addition, a multiplication and a conversion from integers. No algebraic law is
  assumed of them, so every statement holds for whatever rounding the
  operations perform; sums are accumulated in the order the code accumulates.
* `time.Time` is an instant counted in nanoseconds from the zero time, so that
  `IsZero` is equality with `0`. Clock readings are explicit arguments.
* The GORM handle `db` is an explicit store value that every function takes and
  returns. The store has the two tables of the schema, `orders` and
  `order_items`, and two key sequences. A row of `orders` with a `DeletedAt` is
  soft-deleted and no query sees it. Items are written the way GORM saves an
  association: an insert that, on meeting a row of the same primary key, only
  moves that row to the new owner. Connectivity errors and statements the store
  refuses are outside the model.
* A handler takes the store and the parts of the request it reads, and returns
  the store with the status code and envelope it writes.
-/

namespace OrderDelivery

/-- An instant of `time.Time`, in nanoseconds from the zero time. -/
abbrev Time := Int

/-- The duration `time.Minute`, in nanoseconds. -/
def Minute : Int := 60 * 1000000000

/-! ## models/models.go -/

namespace models

/-- The Go type `OrderStatus`, a string. -/
abbrev OrderStatus := String

abbrev StatusPending : OrderStatus := "pending"
abbrev StatusConfirmed : OrderStatus := "confirmed"
abbrev StatusPreparing : OrderStatus := "preparing"
abbrev StatusOutForDelivery : OrderStatus := "out_for_delivery"
abbrev StatusDelivered : OrderStatus := "delivered"
abbrev StatusCancelled : OrderStatus := "cancelled"

/-- A line item; `ID` is its primary key and `OrderID` the key of the order owning it. -/
structure OrderItem (F : Type) where
  ID : Nat
  OrderID : Nat
  Name : String
  Quantity : Int
  Price : F
  deriving DecidableEq

/-- The embedded `gorm.Model`: primary key and the three row timestamps. -/
structure Model where
  ID : Nat
  CreatedAt : Time
  UpdatedAt : Time
  DeletedAt : Option Time
  deriving DecidableEq

/-- The order entity. -/
structure Order (F : Type) extends Model where
  CustomerName : String
  CustomerAddress : String
  CustomerPhone : String
  CustomerEmail : String
  Items : List (OrderItem F)
  TotalAmount : F
  Status : OrderStatus
  DeliveryPerson : String
  DeliveryPhone : String
  Notes : String
  EstimatedDelivery : Time
  deriving DecidableEq

structure StatusLog where
  Status : OrderStatus
  Timestamp : Time
  Message : String
  deriving DecidableEq

structure TrackingInfo where
  OrderID : Nat
  Status : OrderStatus
  DeliveryPerson : String
  DeliveryPhone : String
  EstimatedDelivery : Time
  UpdatedAt : Time
  StatusHistory : List StatusLog
  deriving DecidableEq

structure CreateOrderRequest (F : Type) where
  CustomerName : String
  CustomerAddress : String
  CustomerPhone : String
  CustomerEmail : String
  Items : List (OrderItem F)
  Notes : String
  EstimatedDelivery : Time
  deriving DecidableEq

structure UpdateOrderRequest (F : Type) where
  CustomerName : String
  CustomerAddress : String
  CustomerPhone : String
  CustomerEmail : String
  Items : List (OrderItem F)
  Notes : String
  DeliveryPerson : String
  DeliveryPhone : String
  EstimatedDelivery : Time
  deriving DecidableEq

structure UpdateStatusRequest where
  Status : OrderStatus
  Message : String
  deriving DecidableEq

structure OrderStats (F : Type) where
  TotalOrders : Nat
  PendingOrders : Nat
  DeliveredOrders : Nat
  TotalRevenue : F
  deriving DecidableEq

/-- The values the untyped `Data` field of the response envelope holds. -/
inductive Payload (F : Type) where
  | absent
  | order (o : Order F)
  | orders (l : List (Order F))
  | tracking (t : TrackingInfo)
  | stats (s : OrderStats F)
  deriving DecidableEq

structure APIResponse (F : Type) where
  Success : Bool
  Message : String
  Data : Payload F
  deriving DecidableEq

end models

/-! ## strconv.ParseUint, as the handlers call it -/

namespace strconv

inductive NumError where
  | ErrSyntax
  | ErrRange
  deriving DecidableEq

def maxUint64 : Nat := 2 ^ 64 - 1

/-- The byte operation `c | 0x20` of the library. -/
def lower (c : Nat) : Nat := c ||| 0x20

/-- The digit loop of `ParseUint` for an explicit base between 2 and 36, with the
accumulator `n` a 64-bit unsigned integer. The string is walked by code point:
a code point outside ASCII starts with a byte above `z`, which the library
rejects in its default case exactly as the last branch here does. -/
def parseUintLoop (base cutoff maxVal : Nat) : List Char → Nat → Except NumError Nat
  | [], n => .ok n
  | ch :: cs, n =>
    let c := ch.toNat
    let d? : Option Nat :=
      if 48 ≤ c ∧ c ≤ 57 then some (c - 48)
      else if 97 ≤ lower c ∧ lower c ≤ 122 then some (lower c - 97 + 10)
      else none
    match d? with
    | none => .error .ErrSyntax
    | some d =>
      if d ≥ base then .error .ErrSyntax
      else if n ≥ cutoff then .error .ErrRange
      else
        let n10 := (n * base) % 2 ^ 64
        let n1 := (n10 + d) % 2 ^ 64
        if n1 < n10 ∨ n1 > maxVal then .error .ErrRange
        else parseUintLoop base cutoff maxVal cs n1

/-- The library function `ParseUint(s, base, bitSize)` for `2 ≤ base ≤ 36` and
`1 ≤ bitSize ≤ 64` (the handlers pass 10 and 32). -/
def ParseUint (s : String) (base bitSize : Nat) : Except NumError Nat :=
  if s.data = [] then .error .ErrSyntax
  else parseUintLoop base (maxUint64 / base + 1) (2 ^ bitSize - 1) s.data 0

end strconv

/-! ## The GORM store -/

namespace gorm

open models

/-- The store behind the handle `db`: the rows of the two tables and the next
value of each key sequence. The `Items` field of a row of `orders` is not a
column and is never read. -/
structure DB (F : Type) where
  orders : List (Order F)
  order_items : List (OrderItem F)
  nextOrderID : Nat
  nextItemID : Nat
  deriving DecidableEq

variable {F : Type}

/-- The rows a query on `orders` sees: those not soft-deleted. -/
def liveOrders (db : DB F) : List (Order F) :=
  db.orders.filter (fun r => r.DeletedAt.isNone)

/-- The association loader `Preload("Items")`. -/
def preloadItems (db : DB F) (o : Order F) : Order F :=
  { o with Items := db.order_items.filter (fun it => it.OrderID = o.ID) }

/-- The query `db.First(&order, id)`: the row with that primary key, without its items. -/
def First (db : DB F) (id : Nat) : Option (Order F) :=
  ((liveOrders db).find? (fun r => r.ID = id)).map (fun r => { r with Items := [] })

/-- The query `db.Preload("Items").First(&order, id)`. -/
def PreloadFirst (db : DB F) (id : Nat) : Option (Order F) :=
  (First db id).map (preloadItems db)

/-- The query `db.Preload("Items").Find(&orders)`. -/
def PreloadFind (db : DB F) : List (Order F) :=
  (liveOrders db).map (fun r => preloadItems db { r with Items := [] })

/-- The keys of the items of an order being saved: every item receives the
order's key as `OrderID`; an item without a primary key draws one from the
sequence and an item that carries one keeps it. Returns the items as the struct
holds them afterwards and the next sequence value. -/
def assignKeys (orderID : Nat) : Nat → List (OrderItem F) → List (OrderItem F) × Nat
  | next, [] => ([], next)
  | next, it :: rest =>
    if it.ID = 0 then
      let r := assignKeys orderID (next + 1) rest
      ({ it with ID := next, OrderID := orderID } :: r.1, r.2)
    else
      let r := assignKeys orderID next rest
      ({ it with OrderID := orderID } :: r.1, r.2)

/-- One row of the statement that saves an association,
`INSERT INTO order_items ... ON CONFLICT (id) DO UPDATE SET order_id = excluded.order_id`:
when the table has a row of the item's key, that row changes owner and keeps its
name, quantity and price, and nothing else of the item is stored; otherwise the
item becomes a new row. -/
def upsertItem (table : List (OrderItem F)) (it : OrderItem F) : List (OrderItem F) :=
  if table.any (fun r => r.ID = it.ID) then
    table.map (fun r => if r.ID = it.ID then { r with OrderID := it.OrderID } else r)
  else table ++ [it]

/-- The statement that saves an association, row by row. (The store refuses a
statement that names one key twice; the model goes on.) -/
def upsertItems (table : List (OrderItem F)) (items : List (OrderItem F)) : List (OrderItem F) :=
  items.foldl upsertItem table

/-- The statement `db.Create(order)` for an order without a primary key: the row
gets the next key and both timestamps, its items are saved with it, and the
struct is written back. -/
def Create (db : DB F) (stamp : Time) (o : Order F) : DB F × Order F :=
  let keyed := assignKeys db.nextOrderID db.nextItemID o.Items
  let o1 : Order F :=
    { o with ID := db.nextOrderID, CreatedAt := stamp, UpdatedAt := stamp, Items := keyed.1 }
  ({ orders := db.orders ++ [{ o1 with Items := [] }]
     order_items := upsertItems db.order_items keyed.1
     nextOrderID := db.nextOrderID + 1
     nextItemID := keyed.2 }, o1)

/-- The statement `db.Save(&order)` for an order read from the store: every
column of its row is overwritten, `UpdatedAt` with the clock, and the items the
struct carries are saved. Items the struct does not carry are left alone. -/
def Save (db : DB F) (stamp : Time) (o : Order F) : DB F × Order F :=
  let keyed := assignKeys o.ID db.nextItemID o.Items
  let o1 : Order F := { o with UpdatedAt := stamp, Items := keyed.1 }
  ({ db with
     orders := db.orders.map (fun r =>
       if r.ID = o.ID ∧ r.DeletedAt.isNone then { o1 with Items := [] } else r)
     order_items := upsertItems db.order_items keyed.1
     nextItemID := keyed.2 }, o1)

/-- The statement `db.Where("order_id = ?", id).Delete(&models.OrderItem{})`. -/
def DeleteItemsOfOrder (db : DB F) (id : Nat) : DB F :=
  { db with order_items := db.order_items.filter (fun it => ¬ it.OrderID = id) }

/-- The statement `db.Delete(&models.Order{}, id)`: a soft delete, with the number of rows affected. -/
def DeleteOrder (db : DB F) (stamp : Time) (id : Nat) : DB F × Nat :=
  ({ db with
     orders := db.orders.map (fun r =>
       if r.ID = id ∧ r.DeletedAt.isNone then { r with DeletedAt := some stamp } else r) },
   ((liveOrders db).filter (fun r => r.ID = id)).length)

/-- The query `db.Model(&models.Order{}).Count(..)`. -/
def Count (db : DB F) : Nat := (liveOrders db).length

/-- The query `db.Model(&models.Order{}).Where("status = ?", s).Count(..)`. -/
def CountWhereStatus (db : DB F) (s : OrderStatus) : Nat :=
  ((liveOrders db).filter (fun r => r.Status = s)).length

/-- The aggregate `SUM` over a column of floats: absent for no row, otherwise
the values accumulated from the first in row order. -/
def sqlSum [Add F] : List F → Option F
  | [] => none
  | x :: xs => some (xs.foldl (fun acc y => acc + y) x)

/-- The query `Select("COALESCE(SUM(total_amount), 0)")` on `orders`. -/
def SumTotalAmount [Zero F] [Add F] (db : DB F) : F :=
  (sqlSum ((liveOrders db).map (fun r => r.TotalAmount))).getD 0

end gorm

/-! ## sort.Slice -/

namespace sort

variable {α : Type}

/-- One pass of the inner loop of the library's insertion sort: `x` moves left
past every element it is `less` than. The sorted part is held reversed, nearest
element first. -/
def insertBack (less : α → α → Bool) (x : α) : List α → List α
  | [] => [x]
  | y :: ys => if less x y then y :: insertBack less x ys else x :: y :: ys

/-- The library function `sort.Slice`, as its insertion sort. The library picks
other sorting routines for long slices; they order the slice by the same `less`
and may differ only in where elements that `less` does not separate end up. -/
def Slice (less : α → α → Bool) (xs : List α) : List α :=
  (xs.foldl (fun acc x => insertBack less x acc) []).reverse

end sort

/-! ## database/database.go -/

namespace database

open models gorm

variable {F : Type}

def FetchAllOrders (db : DB F) : List (Order F) :=
  PreloadFind db

/-- Returns `none` for the Go result `(nil, false)`. -/
def FetchOrderById (db : DB F) (id : Nat) : Option (Order F) :=
  PreloadFirst db id

/-- The clock reading `now` is that of `time.Now()` in the function body and
`stamp` the one the store takes for the row timestamps. -/
def AddNewOrder [Zero F] [Add F] [Mul F] [IntCast F]
    (db : DB F) (now stamp : Time) (req : CreateOrderRequest F) : DB F × Order F :=
  let total : F := req.Items.foldl (fun total item => total + item.Price * (item.Quantity : F)) 0
  let order : Order F :=
    { ID := 0, CreatedAt := 0, UpdatedAt := 0, DeletedAt := none
      CustomerName := req.CustomerName
      CustomerAddress := req.CustomerAddress
      CustomerPhone := req.CustomerPhone
      CustomerEmail := req.CustomerEmail
      Items := req.Items
      TotalAmount := total
      Status := StatusPending
      DeliveryPerson := ""
      DeliveryPhone := ""
      Notes := req.Notes
      EstimatedDelivery := now + 45 * Minute }
  Create db stamp order

/-- Returns `none` in the second component for the Go result `(nil, false)`. -/
def ModifyOrder [Zero F] [Add F] [Mul F] [IntCast F]
    (db : DB F) (stamp : Time) (id : Nat) (req : UpdateOrderRequest F) : DB F × Option (Order F) :=
  match First db id with
  | none => (db, none)
  | some order =>
    let order := if req.CustomerName ≠ "" then { order with CustomerName := req.CustomerName } else order
    let order := if req.CustomerAddress ≠ "" then { order with CustomerAddress := req.CustomerAddress } else order
    let order := if req.CustomerPhone ≠ "" then { order with CustomerPhone := req.CustomerPhone } else order
    let order := if req.CustomerEmail ≠ "" then { order with CustomerEmail := req.CustomerEmail } else order
    let st : DB F × Order F :=
      if req.Items.length > 0 then
        let total : F := req.Items.foldl (fun total item => total + item.Price * (item.Quantity : F)) 0
        (DeleteItemsOfOrder db id, { order with Items := req.Items, TotalAmount := total })
      else (db, order)
    let db := st.1
    let order := st.2
    let order := if req.Notes ≠ "" then { order with Notes := req.Notes } else order
    let order := if req.DeliveryPerson ≠ "" then { order with DeliveryPerson := req.DeliveryPerson } else order
    let order := if req.DeliveryPhone ≠ "" then { order with DeliveryPhone := req.DeliveryPhone } else order
    let order := if ¬ req.EstimatedDelivery = 0 then { order with EstimatedDelivery := req.EstimatedDelivery } else order
    let saved := Save db stamp order
    (saved.1, some saved.2)

def RemoveOrder (db : DB F) (stamp : Time) (id : Nat) : DB F × Bool :=
  let result := DeleteOrder db stamp id
  (result.1, decide (result.2 > 0))

/-- Returns `none` in the second component for the Go result `(nil, false)`. -/
def ChangeOrderStatus (db : DB F) (stamp : Time) (id : Nat) (status : OrderStatus) :
    DB F × Option (Order F) :=
  match First db id with
  | none => (db, none)
  | some order =>
    let order := { order with Status := status }
    let saved := Save db stamp order
    (saved.1, some saved.2)

def FetchStatistics [Zero F] [Add F] (db : DB F) : OrderStats F :=
  { TotalOrders := Count db
    PendingOrders := CountWhereStatus db StatusPending
    DeliveredOrders := CountWhereStatus db StatusDelivered
    TotalRevenue := SumTotalAmount db }

end database

/-! ## handlers/handlers.go -/

namespace handlers

open models gorm

variable {F : Type}

/-- What a handler writes with `c.JSON(code, body)`. -/
structure Response (F : Type) where
  code : Nat
  body : APIResponse F
  deriving DecidableEq

def StatusOK : Nat := 200
def StatusBadRequest : Nat := 400
def StatusNotFound : Nat := 404

/-- The text of the validation error for a missing `Status`. -/
def requiredStatusError : String :=
  "Key: \x27UpdateStatusRequest.Status\x27 Error:Field validation for \x27Status\x27 failed on the \x27required\x27 tag"

/-- The call `c.ShouldBindJSON(&req)` for a status request. `body` is the outcome
of decoding the request body (the decoder's error text when it is not a JSON
document of that shape); the `binding:"required"` tag then rejects an empty
status. -/
def bindUpdateStatusRequest (body : Except String UpdateStatusRequest) :
    Except String UpdateStatusRequest :=
  match body with
  | .error e => .error e
  | .ok req => if req.Status = "" then .error requiredStatusError else .ok req

def FetchAllOrders (db : DB F) : DB F × Response F :=
  let orders := database.FetchAllOrders db
  let orders := sort.Slice (fun a b => decide (a.CreatedAt > b.CreatedAt)) orders
  (db, { code := StatusOK
         body := { Success := true, Message := "Orders retrieved successfully", Data := .orders orders } })

def FetchOrderById (db : DB F) (idParam : String) : DB F × Response F :=
  match strconv.ParseUint idParam 10 32 with
  | .error _ =>
    (db, { code := StatusBadRequest
           body := { Success := false, Message := "Invalid order ID", Data := .absent } })
  | .ok id =>
    match database.FetchOrderById db id with
    | none =>
      (db, { code := StatusNotFound
             body := { Success := false, Message := "Order not found", Data := .absent } })
    | some order =>
      (db, { code := StatusOK
             body := { Success := true, Message := "Order retrieved successfully", Data := .order order } })

def validStatuses : List (OrderStatus × Bool) :=
  [ (StatusPending, true), (StatusConfirmed, true), (StatusPreparing, true),
    (StatusOutForDelivery, true), (StatusDelivered, true), (StatusCancelled, true) ]

def ChangeOrderStatus (db : DB F) (stamp : Time) (idParam : String)
    (body : Except String UpdateStatusRequest) : DB F × Response F :=
  match strconv.ParseUint idParam 10 32 with
  | .error _ =>
    (db, { code := StatusBadRequest
           body := { Success := false, Message := "Invalid order ID", Data := .absent } })
  | .ok id =>
    match bindUpdateStatusRequest body with
    | .error err =>
      (db, { code := StatusBadRequest
             body := { Success := false, Message := "Invalid request: " ++ err, Data := .absent } })
    | .ok req =>
      if ¬ (validStatuses.lookup req.Status).getD false then
        (db, { code := StatusBadRequest
               body := { Success := false, Message := "Invalid status", Data := .absent } })
      else
        match database.ChangeOrderStatus db stamp id req.Status with
        | (db1, none) =>
          (db1, { code := StatusNotFound
                  body := { Success := false, Message := "Order not found", Data := .absent } })
        | (db1, some order) =>
          (db1, { code := StatusOK
                  body := { Success := true, Message := "Order status updated successfully",
                            Data := .order order } })

def messages : List (OrderStatus × String) :=
  [ (StatusPending, "Order placed"),
    (StatusConfirmed, "Order confirmed by restaurant"),
    (StatusPreparing, "Order is being prepared"),
    (StatusOutForDelivery, "Order is out for delivery"),
    (StatusDelivered, "Order delivered successfully"),
    (StatusCancelled, "Order cancelled") ]

/-- A key the map does not hold reads as the empty string. -/
def getMessageForStatus (status : OrderStatus) : String :=
  (messages.lookup status).getD ""

def statusOrder : List OrderStatus :=
  [StatusConfirmed, StatusPreparing, StatusOutForDelivery, StatusDelivered]

/-- The first loop of `GetOrderTracking`: the index of the first entry equal to
the status, starting the count at `i`, or `-1`. -/
def findCurrentIndex (status : OrderStatus) : Nat → List OrderStatus → Int
  | _, [] => -1
  | i, s :: rest => if status = s then (i : Int) else findCurrentIndex status (i + 1) rest

/-- The second loop of `GetOrderTracking`, at index `i` with `rest` the entries
of `statusOrder` from `i` on: it stops when `i` passes `currentIndex` or the
entries run out. -/
def appendHistory (updatedAt : Time) (currentIndex : Int) :
    Nat → List OrderStatus → List StatusLog → List StatusLog
  | _, [], statusHistory => statusHistory
  | i, s :: rest, statusHistory =>
    if (i : Int) ≤ currentIndex then
      appendHistory updatedAt currentIndex (i + 1) rest
        (statusHistory ++ [{ Status := s, Timestamp := updatedAt, Message := getMessageForStatus s }])
    else statusHistory

/-- The history `GetOrderTracking` builds for an order it has fetched. -/
def buildStatusHistory (order : Order F) : List StatusLog :=
  let statusHistory : List StatusLog :=
    [{ Status := StatusPending, Timestamp := order.CreatedAt, Message := "Order placed" }]
  let currentIndex := findCurrentIndex order.Status 0 statusOrder
  appendHistory order.UpdatedAt currentIndex 0 statusOrder statusHistory

def GetOrderTracking (db : DB F) (idParam : String) : DB F × Response F :=
  match strconv.ParseUint idParam 10 32 with
  | .error _ =>
    (db, { code := StatusBadRequest
           body := { Success := false, Message := "Invalid order ID", Data := .absent } })
  | .ok id =>
    match database.FetchOrderById db id with
    | none =>
      (db, { code := StatusNotFound
             body := { Success := false, Message := "Order not found", Data := .absent } })
    | some order =>
      let trackingInfo : TrackingInfo :=
        { OrderID := order.ID
          Status := order.Status
          DeliveryPerson := order.DeliveryPerson
          DeliveryPhone := order.DeliveryPhone
          EstimatedDelivery := order.EstimatedDelivery
          UpdatedAt := order.UpdatedAt
          StatusHistory := buildStatusHistory order }
      (db, { code := StatusOK
             body := { Success := true, Message := "Tracking information retrieved",
                       Data := .tracking trackingInfo } })

def FetchOrderStatistics [Zero F] [Add F] (db : DB F) : DB F × Response F :=
  let stats := database.FetchStatistics db
  (db, { code := StatusOK
         body := { Success := true, Message := "Statistics retrieved successfully", Data := .stats stats } })

end handlers

/-! ## Notions the statements use -/

section Notions

open models

variable {F : Type}

/-- The history entry of a status of the canonical sequence for an order last
modified at `updatedAt`. -/
def laterEntry (updatedAt : Time) (s : OrderStatus) : StatusLog :=
  { Status := s, Timestamp := updatedAt, Message := handlers.getMessageForStatus s }

/-- What a client supplies of a line item: name, quantity and unit price. The
two key fields are filled in by the store. -/
def lineOf (it : OrderItem F) : String × Int × F :=
  (it.Name, it.Quantity, it.Price)

/-- The amount of one line: unit price times quantity. -/
def lineAmount [Mul F] [IntCast F] (it : OrderItem F) : F :=
  it.Price * (it.Quantity : F)

/-- The sum of a list of amounts added from left to right onto `acc`. -/
def sumFrom [Add F] (acc : F) : List F → F
  | [] => acc
  | x :: xs => sumFrom (acc + x) xs

/-- The sum of the amounts of the lines of an item list, `0` for no line. -/
def itemsTotal [Zero F] [Add F] [Mul F] [IntCast F] (items : List (OrderItem F)) : F :=
  sumFrom 0 (items.map lineAmount)

/-- The sum of a list of amounts as the store adds a column: `0` for no row,
otherwise the rows added from left to right onto the first. -/
def columnSum [Zero F] [Add F] : List F → F
  | [] => 0
  | x :: xs => sumFrom x xs

/-- The number a string of decimal digits denotes. -/
def decimalValue (cs : List Char) : Nat :=
  cs.foldl (fun n c => 10 * n + (c.toNat - 48)) 0

/-- The string is a base-10 unsigned integer that fits in 32 bits: one or more
digits `0` to `9` and nothing else, denoting a number below `2 ^ 32`. -/
def IsUint32Decimal (s : String) : Prop :=
  s.data ≠ [] ∧ (∀ c ∈ s.data, 48 ≤ c.toNat ∧ c.toNat ≤ 57) ∧ decimalValue s.data < 2 ^ 32

/-- The order an update request asks for, given the stored order `o`: every
field the request supplies non-empty takes the request's value, every other
field keeps the value of `o`; a supplied item list also sets the total to the
sum over that list. The status and the row keys are not part of a request. -/
def updatedOrder [Zero F] [Add F] [Mul F] [IntCast F] (req : UpdateOrderRequest F) (o : Order F) :
    Order F :=
  { toModel := o.toModel
    CustomerName := if req.CustomerName ≠ "" then req.CustomerName else o.CustomerName
    CustomerAddress := if req.CustomerAddress ≠ "" then req.CustomerAddress else o.CustomerAddress
    CustomerPhone := if req.CustomerPhone ≠ "" then req.CustomerPhone else o.CustomerPhone
    CustomerEmail := if req.CustomerEmail ≠ "" then req.CustomerEmail else o.CustomerEmail
    Items := if req.Items.length > 0 then req.Items else o.Items
    TotalAmount := if req.Items.length > 0 then itemsTotal req.Items else o.TotalAmount
    Status := o.Status
    DeliveryPerson := if req.DeliveryPerson ≠ "" then req.DeliveryPerson else o.DeliveryPerson
    DeliveryPhone := if req.DeliveryPhone ≠ "" then req.DeliveryPhone else o.DeliveryPhone
    Notes := if req.Notes ≠ "" then req.Notes else o.Notes
    EstimatedDelivery :=
      if ¬ req.EstimatedDelivery = 0 then req.EstimatedDelivery else o.EstimatedDelivery }

/-- The six recognized statuses. -/
def recognizedStatuses : List OrderStatus :=
  ["pending", "confirmed", "preparing", "out_for_delivery", "delivered", "cancelled"]

end Notions

/-! ## Sample data -/

namespace sample

open models gorm

def pizza : OrderItem Int := { ID := 1, OrderID := 1, Name := "pizza", Quantity := 2, Price := 10 }
def cola : OrderItem Int := { ID := 2, OrderID := 1, Name := "cola", Quantity := 1, Price := 5 }

def order1 : Order Int :=
  { ID := 1, CreatedAt := 100, UpdatedAt := 150, DeletedAt := none
    CustomerName := "Ann", CustomerAddress := "1 Main St", CustomerPhone := "555", CustomerEmail := ""
    Items := [], TotalAmount := 25, Status := StatusOutForDelivery
    DeliveryPerson := "Bo", DeliveryPhone := "777", Notes := "", EstimatedDelivery := 500 }

def store1 : DB Int :=
  { orders := [order1], order_items := [pizza, cola], nextOrderID := 2, nextItemID := 3 }

def newPizza : OrderItem Int := { ID := 0, OrderID := 0, Name := "pizza", Quantity := 2, Price := 10 }
def newCola : OrderItem Int := { ID := 0, OrderID := 0, Name := "cola", Quantity := 1, Price := 5 }

/-- A create request that leaves the estimated delivery out. -/
def createReq : CreateOrderRequest Int :=
  { CustomerName := "Cy", CustomerAddress := "2 Side St", CustomerPhone := "556", CustomerEmail := ""
    Items := [newPizza, newCola], Notes := "ring twice", EstimatedDelivery := 0 }

/-- The same request asking for delivery at the instant `9000000000000`. -/
def createReqWithEstimate : CreateOrderRequest Int :=
  { createReq with EstimatedDelivery := 9000000000000 }

def newSalad : OrderItem Int := { ID := 0, OrderID := 0, Name := "salad", Quantity := 3, Price := 7 }

/-- An update request that supplies nothing but a new item list. -/
def replaceItemsReq : UpdateOrderRequest Int :=
  { CustomerName := "", CustomerAddress := "", CustomerPhone := "", CustomerEmail := ""
    Items := [newSalad], Notes := "", DeliveryPerson := "", DeliveryPhone := "", EstimatedDelivery := 0 }

/-- An update request that supplies nothing but notes. -/
def notesOnlyReq : UpdateOrderRequest Int :=
  { CustomerName := "", CustomerAddress := "", CustomerPhone := "", CustomerEmail := ""
    Items := [], Notes := "leave at the door", DeliveryPerson := "", DeliveryPhone := ""
    EstimatedDelivery := 0 }

/-- An order of the given key, creation time, status and total, without customer data. -/
def plainOrder (id : Nat) (createdAt : Time) (status : OrderStatus) (total : Int) : Order Int :=
  { ID := id, CreatedAt := createdAt, UpdatedAt := createdAt, DeletedAt := none
    CustomerName := "", CustomerAddress := "", CustomerPhone := "", CustomerEmail := ""
    Items := [], TotalAmount := total, Status := status
    DeliveryPerson := "", DeliveryPhone := "", Notes := "", EstimatedDelivery := 0 }

/-- Three orders, two pending and one delivered, of amounts 10, 20 and 30, stored
neither oldest first nor newest first. -/
def store3 : DB Int :=
  { orders := [plainOrder 1 200 "pending" 10, plainOrder 2 100 "delivered" 20, plainOrder 3 300 "pending" 30]
    order_items := [], nextOrderID := 4, nextItemID := 1 }

def soup : OrderItem Int := { ID := 3, OrderID := 2, Name := "soup", Quantity := 1, Price := 4 }

/-- The sample store with a second order, which owns the item of key 3. -/
def store2 : DB Int :=
  { orders := [order1, plainOrder 2 120 "pending" 4], order_items := [pizza, cola, soup]
    nextOrderID := 3, nextItemID := 4 }

/-- An update request whose one item carries the key 3. -/
def clashReq : UpdateOrderRequest Int :=
  { CustomerName := "", CustomerAddress := "", CustomerPhone := "", CustomerEmail := ""
    Items := [{ ID := 3, OrderID := 0, Name := "stolen", Quantity := 5, Price := 1 }]
    Notes := "", DeliveryPerson := "", DeliveryPhone := "", EstimatedDelivery := 0 }

end sample

/-! ## Order tracking -/

section Tracking

open models gorm handlers

variable {F : Type}

theorem buildStatusHistory_of_index (o : Order F) (k : Nat) (hk : k < 4)
    (hs : ["confirmed", "preparing", "out_for_delivery", "delivered"][k]? = some o.Status) :
    buildStatusHistory o =
      { Status := "pending", Timestamp := o.CreatedAt, Message := "Order placed" } ::
        (["confirmed", "preparing", "out_for_delivery", "delivered"].take (k + 1)).map
          (laterEntry o.UpdatedAt) := by
  interval_cases k <;> simp at hs <;>
    simp [buildStatusHistory, findCurrentIndex, appendHistory, statusOrder, laterEntry, ← hs,
      StatusPending, StatusConfirmed, StatusPreparing, StatusOutForDelivery, StatusDelivered]

theorem buildStatusHistory_of_other (o : Order F)
    (hs : o.Status ∉ ["confirmed", "preparing", "out_for_delivery", "delivered"]) :
    buildStatusHistory o =
      [{ Status := "pending", Timestamp := o.CreatedAt, Message := "Order placed" }] := by
  simp at hs
  obtain ⟨h1, h2, h3, h4⟩ := hs
  simp [buildStatusHistory, findCurrentIndex, appendHistory, statusOrder, h1, h2, h3, h4,
    StatusPending, StatusConfirmed, StatusPreparing, StatusOutForDelivery, StatusDelivered]

theorem GetOrderTracking_found (db : DB F) (idParam : String) (id : Nat) (o : Order F)
    (hid : strconv.ParseUint idParam 10 32 = .ok id)
    (ho : database.FetchOrderById db id = some o) :
    GetOrderTracking db idParam =
      (db, { code := 200
             body := { Success := true, Message := "Tracking information retrieved",
                       Data := .tracking
                         { OrderID := o.ID, Status := o.Status, DeliveryPerson := o.DeliveryPerson
                           DeliveryPhone := o.DeliveryPhone, EstimatedDelivery := o.EstimatedDelivery
                           UpdatedAt := o.UpdatedAt, StatusHistory := buildStatusHistory o } } }) := by
  simp [GetOrderTracking, hid, ho, StatusOK]

/-- C1: when `GetOrderTracking` finds the order `o`, it answers with a tracking
view whose history is: for a status at position `k` of the sequence confirmed,
preparing, out_for_delivery, delivered, the pending entry followed by the first
`k + 1` statuses of the sequence in order; for any other status the pending entry
alone. The pending entry carries the creation time and the text "Order placed";
each later entry carries the last-modified time and the fixed text of its
status, the four texts being those listed last. -/
theorem GetOrderTracking_history (db : DB F) (idParam : String) (id : Nat) (o : Order F)
    (hid : strconv.ParseUint idParam 10 32 = .ok id)
    (ho : database.FetchOrderById db id = some o) :
    ∃ t : TrackingInfo,
      (GetOrderTracking db idParam).2.body.Data = .tracking t ∧
      (∀ k, k < 4 →
        ["confirmed", "preparing", "out_for_delivery", "delivered"][k]? = some o.Status →
        t.StatusHistory =
          { Status := "pending", Timestamp := o.CreatedAt, Message := "Order placed" } ::
            (["confirmed", "preparing", "out_for_delivery", "delivered"].take (k + 1)).map
              (fun s => { Status := s, Timestamp := o.UpdatedAt, Message := getMessageForStatus s })) ∧
      (o.Status ∉ ["confirmed", "preparing", "out_for_delivery", "delivered"] →
        t.StatusHistory =
          [{ Status := "pending", Timestamp := o.CreatedAt, Message := "Order placed" }]) ∧
      getMessageForStatus "confirmed" = "Order confirmed by restaurant" ∧
      getMessageForStatus "preparing" = "Order is being prepared" ∧
      getMessageForStatus "out_for_delivery" = "Order is out for delivery" ∧
      getMessageForStatus "delivered" = "Order delivered successfully" := by
  refine ⟨_, by rw [GetOrderTracking_found db idParam id o hid ho], ?_, ?_, ?_⟩
  · intro k hk hs
    exact buildStatusHistory_of_index o k hk hs
  · intro hs
    exact buildStatusHistory_of_other o hs
  · decide

/-- The sample order, out for delivery, is tracked through all four entries. -/
theorem GetOrderTracking_history_witness :
    strconv.ParseUint "1" 10 32 = .ok 1 ∧
    database.FetchOrderById sample.store1 1 = some (preloadItems sample.store1 sample.order1) ∧
    ∃ t : TrackingInfo,
      (GetOrderTracking sample.store1 "1").2.body.Data = .tracking t ∧
      t.StatusHistory =
        [ { Status := "pending", Timestamp := 100, Message := "Order placed" },
          { Status := "confirmed", Timestamp := 150, Message := "Order confirmed by restaurant" },
          { Status := "preparing", Timestamp := 150, Message := "Order is being prepared" },
          { Status := "out_for_delivery", Timestamp := 150, Message := "Order is out for delivery" } ] := by
  refine ⟨rfl, by decide, ?_⟩
  obtain ⟨t, ht, hk, _⟩ :=
    GetOrderTracking_history sample.store1 "1" 1 (preloadItems sample.store1 sample.order1)
      rfl (by decide)
  exact ⟨t, ht, by rw [hk 2 (by decide) (by decide)]; decide⟩

end Tracking

/-! ## Creating an order -/

section Creating

open models gorm

variable {F : Type}

theorem foldl_lineAmount_eq_sumFrom [Add F] [Mul F] [IntCast F] (items : List (OrderItem F)) (acc : F) :
    items.foldl (fun total item => total + item.Price * (item.Quantity : F)) acc =
      sumFrom acc (items.map lineAmount) := by
  induction items generalizing acc with
  | nil => rfl
  | cons it rest ih => simpa [sumFrom, lineAmount] using ih (acc + it.Price * (it.Quantity : F))

/-- Where addition is that of a commutative monoid, `sumFrom` is the sum of the list. -/
theorem sumFrom_eq_sum {M : Type} [AddCommMonoid M] (acc : M) (xs : List M) :
    sumFrom acc xs = acc + xs.sum := by
  induction xs generalizing acc with
  | nil => simp [sumFrom]
  | cons x xs ih => simp [sumFrom, ih, add_assoc]

theorem assignKeys_lineOf (orderID next : Nat) (items : List (OrderItem F)) :
    (assignKeys orderID next items).1.map lineOf = items.map lineOf := by
  induction items generalizing next with
  | nil => rfl
  | cons it rest ih =>
    by_cases h : it.ID = 0 <;> simp [assignKeys, h, ih, lineOf]

theorem assignKeys_owner (orderID next : Nat) (items : List (OrderItem F)) :
    ∀ it ∈ (assignKeys orderID next items).1, it.OrderID = orderID := by
  induction items generalizing next with
  | nil => simp [assignKeys]
  | cons it rest ih =>
    by_cases h : it.ID = 0
    · simp only [assignKeys, h, if_true, List.mem_cons]
      rintro x (rfl | hx)
      · rfl
      · exact ih _ x hx
    · simp only [assignKeys, h, if_false, List.mem_cons]
      rintro x (rfl | hx)
      · rfl
      · exact ih _ x hx

/-- C8, evaluated: a create request that supplies the estimated delivery
`9000000000000` at the instant `1000` gets `1000` plus 45 minutes, not the instant
it supplied, and so does the same request without one. -/
theorem AddNewOrder_drops_supplied_estimate :
    sample.createReqWithEstimate.EstimatedDelivery = 9000000000000 ∧
    (database.AddNewOrder sample.store1 1000 1001 sample.createReqWithEstimate).2.EstimatedDelivery =
      1000 + 45 * Minute ∧
    (database.AddNewOrder sample.store1 1000 1001 sample.createReqWithEstimate).2.EstimatedDelivery ≠
      9000000000000 ∧
    (database.AddNewOrder sample.store1 1000 1001 sample.createReq).2.EstimatedDelivery =
      1000 + 45 * Minute := by
  decide

/-- Whatever the request supplies, the estimated delivery of the new order is 45 minutes from now. -/
theorem AddNewOrder_estimate [Zero F] [Add F] [Mul F] [IntCast F]
    (db : DB F) (now stamp : Time) (req : CreateOrderRequest F) :
    (database.AddNewOrder db now stamp req).2.EstimatedDelivery = now + 45 * Minute := rfl

end Creating

/-! ## Updating an order -/

section Updating

open models gorm

variable {F : Type}

theorem First_some (db : DB F) (id : Nat) (o0 : Order F) (h : First db id = some o0) :
    o0.ID = id ∧ o0.DeletedAt = none ∧ o0.Items = [] := by
  unfold First at h
  cases hf : (liveOrders db).find? (fun r => r.ID = id) with
  | none => simp [hf] at h
  | some r =>
    rw [hf] at h
    simp only [Option.map_some', Option.some.injEq] at h
    have h1 := List.find?_some hf
    have h2 := List.mem_of_find?_eq_some hf
    simp only [liveOrders, List.mem_filter] at h2
    subst h
    refine ⟨by simpa using h1, ?_, rfl⟩
    have := h2.2
    cases hd : r.DeletedAt <;> simp_all

theorem ModifyOrder_found [Zero F] [Add F] [Mul F] [IntCast F]
    (db : DB F) (stamp : Time) (id : Nat) (req : UpdateOrderRequest F) (o0 : Order F)
    (h : First db id = some o0) :
    database.ModifyOrder db stamp id req =
      ((Save (if req.Items.length > 0 then DeleteItemsOfOrder db id else db) stamp
          (updatedOrder req o0)).1,
       some (Save (if req.Items.length > 0 then DeleteItemsOfOrder db id else db) stamp
          (updatedOrder req o0)).2) := by
  delta database.ModifyOrder
  split
  · rename_i hnone
    rw [h] at hnone
    cases hnone
  · rename_i o hsome
    rw [h] at hsome
    cases hsome
    lift_lets
    intro a1 a2 a3 a4 total st db1 a5 a6 a7 a8 a9 saved
    have ht : total = itemsTotal req.Items := foldl_lineAmount_eq_sumFrom req.Items 0
    clear_value total
    subst ht
    have e1 : a1 =
        { o0 with
          CustomerName := if req.CustomerName ≠ "" then req.CustomerName else o0.CustomerName } := by
      by_cases hc : req.CustomerName ≠ ""
      · simp only [a1, if_pos hc]
      · simp only [a1, if_neg hc]
    clear_value a1
    subst e1
    have e2 : a2 =
        { o0 with
          CustomerName := if req.CustomerName ≠ "" then req.CustomerName else o0.CustomerName
          CustomerAddress := if req.CustomerAddress ≠ "" then req.CustomerAddress else o0.CustomerAddress } := by
      by_cases hc : req.CustomerAddress ≠ ""
      · simp only [a2, if_pos hc]
      · simp only [a2, if_neg hc]
    clear_value a2
    subst e2
    have e3 : a3 =
        { o0 with
          CustomerName := if req.CustomerName ≠ "" then req.CustomerName else o0.CustomerName
          CustomerAddress := if req.CustomerAddress ≠ "" then req.CustomerAddress else o0.CustomerAddress
          CustomerPhone := if req.CustomerPhone ≠ "" then req.CustomerPhone else o0.CustomerPhone } := by
      by_cases hc : req.CustomerPhone ≠ ""
      · simp only [a3, if_pos hc]
      · simp only [a3, if_neg hc]
    clear_value a3
    subst e3
    have e4 : a4 =
        { o0 with
          CustomerName := if req.CustomerName ≠ "" then req.CustomerName else o0.CustomerName
          CustomerAddress := if req.CustomerAddress ≠ "" then req.CustomerAddress else o0.CustomerAddress
          CustomerPhone := if req.CustomerPhone ≠ "" then req.CustomerPhone else o0.CustomerPhone
          CustomerEmail := if req.CustomerEmail ≠ "" then req.CustomerEmail else o0.CustomerEmail } := by
      by_cases hc : req.CustomerEmail ≠ ""
      · simp only [a4, if_pos hc]
      · simp only [a4, if_neg hc]
    clear_value a4
    subst e4
    have e5 : st = (if req.Items.length > 0 then DeleteItemsOfOrder db id else db,
        { o0 with
          CustomerName := if req.CustomerName ≠ "" then req.CustomerName else o0.CustomerName
          CustomerAddress := if req.CustomerAddress ≠ "" then req.CustomerAddress else o0.CustomerAddress
          CustomerPhone := if req.CustomerPhone ≠ "" then req.CustomerPhone else o0.CustomerPhone
          CustomerEmail := if req.CustomerEmail ≠ "" then req.CustomerEmail else o0.CustomerEmail
          Items := if req.Items.length > 0 then req.Items else o0.Items
          TotalAmount := if req.Items.length > 0 then itemsTotal req.Items else o0.TotalAmount }) := by
      by_cases hc : req.Items.length > 0
      · simp only [st, if_pos hc]
      · simp only [st, if_neg hc]
    clear_value st
    subst e5
    have e6 : a6 =
        { o0 with
          CustomerName := if req.CustomerName ≠ "" then req.CustomerName else o0.CustomerName
          CustomerAddress := if req.CustomerAddress ≠ "" then req.CustomerAddress else o0.CustomerAddress
          CustomerPhone := if req.CustomerPhone ≠ "" then req.CustomerPhone else o0.CustomerPhone
          CustomerEmail := if req.CustomerEmail ≠ "" then req.CustomerEmail else o0.CustomerEmail
          Items := if req.Items.length > 0 then req.Items else o0.Items
          TotalAmount := if req.Items.length > 0 then itemsTotal req.Items else o0.TotalAmount
          Notes := if req.Notes ≠ "" then req.Notes else o0.Notes } := by
      by_cases hc : req.Notes ≠ ""
      · simp only [a6, a5, if_pos hc]
      · simp only [a6, a5, if_neg hc]
    clear_value a6
    subst e6
    have e7 : a7 =
        { o0 with
          CustomerName := if req.CustomerName ≠ "" then req.CustomerName else o0.CustomerName
          CustomerAddress := if req.CustomerAddress ≠ "" then req.CustomerAddress else o0.CustomerAddress
          CustomerPhone := if req.CustomerPhone ≠ "" then req.CustomerPhone else o0.CustomerPhone
          CustomerEmail := if req.CustomerEmail ≠ "" then req.CustomerEmail else o0.CustomerEmail
          Items := if req.Items.length > 0 then req.Items else o0.Items
          TotalAmount := if req.Items.length > 0 then itemsTotal req.Items else o0.TotalAmount
          Notes := if req.Notes ≠ "" then req.Notes else o0.Notes
          DeliveryPerson := if req.DeliveryPerson ≠ "" then req.DeliveryPerson else o0.DeliveryPerson } := by
      by_cases hc : req.DeliveryPerson ≠ ""
      · simp only [a7, if_pos hc]
      · simp only [a7, if_neg hc]
    clear_value a7
    subst e7
    have e8 : a8 =
        { o0 with
          CustomerName := if req.CustomerName ≠ "" then req.CustomerName else o0.CustomerName
          CustomerAddress := if req.CustomerAddress ≠ "" then req.CustomerAddress else o0.CustomerAddress
          CustomerPhone := if req.CustomerPhone ≠ "" then req.CustomerPhone else o0.CustomerPhone
          CustomerEmail := if req.CustomerEmail ≠ "" then req.CustomerEmail else o0.CustomerEmail
          Items := if req.Items.length > 0 then req.Items else o0.Items
          TotalAmount := if req.Items.length > 0 then itemsTotal req.Items else o0.TotalAmount
          Notes := if req.Notes ≠ "" then req.Notes else o0.Notes
          DeliveryPerson := if req.DeliveryPerson ≠ "" then req.DeliveryPerson else o0.DeliveryPerson
          DeliveryPhone := if req.DeliveryPhone ≠ "" then req.DeliveryPhone else o0.DeliveryPhone } := by
      by_cases hc : req.DeliveryPhone ≠ ""
      · simp only [a8, if_pos hc]
      · simp only [a8, if_neg hc]
    clear_value a8
    subst e8
    have e9 : a9 =
        { o0 with
          CustomerName := if req.CustomerName ≠ "" then req.CustomerName else o0.CustomerName
          CustomerAddress := if req.CustomerAddress ≠ "" then req.CustomerAddress else o0.CustomerAddress
          CustomerPhone := if req.CustomerPhone ≠ "" then req.CustomerPhone else o0.CustomerPhone
          CustomerEmail := if req.CustomerEmail ≠ "" then req.CustomerEmail else o0.CustomerEmail
          Items := if req.Items.length > 0 then req.Items else o0.Items
          TotalAmount := if req.Items.length > 0 then itemsTotal req.Items else o0.TotalAmount
          Notes := if req.Notes ≠ "" then req.Notes else o0.Notes
          DeliveryPerson := if req.DeliveryPerson ≠ "" then req.DeliveryPerson else o0.DeliveryPerson
          DeliveryPhone := if req.DeliveryPhone ≠ "" then req.DeliveryPhone else o0.DeliveryPhone
          EstimatedDelivery := if ¬ req.EstimatedDelivery = 0 then req.EstimatedDelivery else o0.EstimatedDelivery } := by
      by_cases hc : ¬ req.EstimatedDelivery = 0
      · simp only [a9, if_pos hc]
      · simp only [a9, if_neg hc]
    clear_value a9
    subst e9
    rfl

theorem find_live_after_overwrite (l : List (Order F)) (id : Nat) (c : Order F)
    (hc : c.ID = id) (hl : c.DeletedAt = none) :
    ((l.map (fun r => if r.ID = id ∧ r.DeletedAt.isNone then c else r)).filter
        (fun r => r.DeletedAt.isNone)).find? (fun r => r.ID = id) =
      ((l.filter (fun r => r.DeletedAt.isNone)).find? (fun r => r.ID = id)).map (fun _ => c) := by
  induction l with
  | nil => rfl
  | cons r rest ih =>
    by_cases h1 : r.DeletedAt.isNone = true
    · by_cases h2 : r.ID = id
      · have hq : c.DeletedAt.isNone = true := by rw [hl]; rfl
        simp only [List.map_cons, h2, h1, and_self, if_true, List.filter_cons, hq, List.find?_cons,
          hc, decide_True, Option.map_some']
      · simp only [List.map_cons, h2, false_and, if_false, List.filter_cons, h1, if_true,
          List.find?_cons, decide_False]
        exact ih
    · have h1f : r.DeletedAt.isNone = false := Bool.eq_false_iff.mpr h1
      simp only [List.map_cons, h1f, Bool.false_eq_true, and_false, if_false, List.filter_cons]
      exact ih

/-- Reading back the row that `Save` has just written. -/
theorem First_Save (db : DB F) (stamp : Time) (x o0 : Order F)
    (h : First db x.ID = some o0) (hl : x.DeletedAt = none) :
    First (Save db stamp x).1 x.ID =
      some { x with UpdatedAt := stamp, Items := [] } := by
  unfold First at h ⊢
  cases hf : (liveOrders db).find? (fun r => r.ID = x.ID) with
  | none => simp [hf] at h
  | some r =>
    have key := find_live_after_overwrite db.orders x.ID
      { x with UpdatedAt := stamp, Items := [] } rfl hl
    simp only [liveOrders] at hf
    simp only [liveOrders, Save, key, hf, Option.map_some']

theorem Save_order_items (db : DB F) (stamp : Time) (x : Order F) :
    (Save db stamp x).1.order_items =
      upsertItems db.order_items (assignKeys x.ID db.nextItemID x.Items).1 := rfl

/-- Items whose keys are new to the table and differ from one another become new rows. -/
theorem upsertItems_fresh (table items : List (OrderItem F))
    (hfresh : ∀ it ∈ items, ∀ r ∈ table, r.ID ≠ it.ID)
    (hnodup : (items.map (fun it => it.ID)).Nodup) :
    upsertItems table items = table ++ items := by
  induction items generalizing table with
  | nil => simp [upsertItems]
  | cons it rest ih =>
    have hit : upsertItem table it = table ++ [it] := by
      unfold upsertItem
      rw [if_neg]
      simp only [List.any_eq_true, decide_eq_true_eq, not_exists, not_and]
      intro r hr
      exact hfresh it (List.mem_cons_self it rest) r hr
    rw [List.map_cons, List.nodup_cons] at hnodup
    have := ih (table ++ [it]) (by
      intro it2 hit2 r hr
      rcases List.mem_append.mp hr with hr | hr
      · exact hfresh it2 (List.mem_cons_of_mem it hit2) r hr
      · rw [List.mem_singleton] at hr
        subst hr
        intro he
        exact hnodup.1 (List.mem_map.mpr ⟨it2, hit2, he.symm⟩)) hnodup.2
    unfold upsertItems at this ⊢
    rw [List.foldl_cons, hit, this, List.append_assoc, List.singleton_append]

theorem Save_returned (db : DB F) (stamp : Time) (x : Order F) :
    (Save db stamp x).2 =
      { x with UpdatedAt := stamp, Items := (assignKeys x.ID db.nextItemID x.Items).1 } := rfl

theorem filter_owner_of_owned (id : Nat) (l : List (OrderItem F)) (h : ∀ it ∈ l, it.OrderID = id) :
    l.filter (fun it => it.OrderID = id) = l := by
  rw [List.filter_eq_self]
  intro it hit
  simpa using h it hit

theorem filter_owner_of_deleted (id : Nat) (l : List (OrderItem F)) :
    (l.filter (fun it => ¬ it.OrderID = id)).filter (fun it => it.OrderID = id) = [] := by
  rw [List.filter_eq_nil_iff]
  intro it hit
  have := (List.mem_filter.mp hit).2
  simpa using this

/-- Replacing the items of an order, for a request whose items, once keyed, carry
keys that differ from one another and from the key of every item of another
order: `ModifyOrder` returns an order that is also what the store then holds
under that id; its items are the supplied list, line for line, each owned by the
order, with no prior item of the order left among them; and its total amount is
the sum of price times quantity over the supplied list. -/
theorem ModifyOrder_replaces_items_of_fresh_keys [Zero F] [Add F] [Mul F] [IntCast F]
    (db : DB F) (stamp : Time) (id : Nat) (req : UpdateOrderRequest F) (before : Order F)
    (hex : database.FetchOrderById db id = some before) (hitems : req.Items ≠ [])
    (hfresh : ∀ it ∈ (assignKeys id db.nextItemID req.Items).1,
      ∀ r ∈ db.order_items, r.OrderID ≠ id → r.ID ≠ it.ID)
    (hnodup : ((assignKeys id db.nextItemID req.Items).1.map (fun it => it.ID)).Nodup) :
    ∃ o : Order F,
      (database.ModifyOrder db stamp id req).2 = some o ∧
      database.FetchOrderById (database.ModifyOrder db stamp id req).1 id = some o ∧
      o.Items.map lineOf = req.Items.map lineOf ∧
      (∀ it ∈ o.Items, it.OrderID = id) ∧
      (database.ModifyOrder db stamp id req).1.order_items.filter (fun it => it.OrderID = id) = o.Items ∧
      o.TotalAmount = itemsTotal req.Items := by
  unfold database.FetchOrderById PreloadFirst at hex
  cases hf : First db id with
  | none => simp [hf] at hex
  | some o0 =>
    obtain ⟨h1, h2, _⟩ := First_some db id o0 hf
    have hlen : req.Items.length > 0 := List.length_pos.mpr hitems
    have hid : (updatedOrder req o0).ID = id := h1
    have hdel : (updatedOrder req o0).DeletedAt = none := h2
    have hits : (updatedOrder req o0).Items = req.Items := by simp [updatedOrder, hlen]
    have htot : (updatedOrder req o0).TotalAmount = itemsTotal req.Items := by simp [updatedOrder, hlen]
    have hfirst : First (DeleteItemsOfOrder db id) (updatedOrder req o0).ID = some o0 := by
      rw [hid]; exact hf
    rw [ModifyOrder_found db stamp id req o0 hf]
    simp only [hlen, if_true]
    have hown := assignKeys_owner id (DeleteItemsOfOrder db id).nextItemID req.Items
    have hups : upsertItems (DeleteItemsOfOrder db id).order_items
        (assignKeys id (DeleteItemsOfOrder db id).nextItemID req.Items).1 =
        (DeleteItemsOfOrder db id).order_items ++
          (assignKeys id (DeleteItemsOfOrder db id).nextItemID req.Items).1 := by
      refine upsertItems_fresh _ _ ?_ hnodup
      intro it hit r hr
      simp only [DeleteItemsOfOrder, List.mem_filter, decide_eq_true_eq] at hr
      exact hfresh it hit r hr.1 hr.2
    have hstored : (Save (DeleteItemsOfOrder db id) stamp (updatedOrder req o0)).1.order_items.filter
        (fun it => it.OrderID = id) =
        (assignKeys id (DeleteItemsOfOrder db id).nextItemID req.Items).1 := by
      rw [Save_order_items, hid, hits, hups, List.filter_append, filter_owner_of_owned id _ hown]
      simp only [DeleteItemsOfOrder, filter_owner_of_deleted, List.nil_append]
    refine ⟨_, rfl, ?_, ?_, ?_, ?_, ?_⟩
    · unfold database.FetchOrderById PreloadFirst
      have := First_Save (DeleteItemsOfOrder db id) stamp (updatedOrder req o0) o0 hfirst hdel
      rw [hid] at this
      rw [this]
      simp only [Option.map_some', preloadItems, Option.some.injEq]
      rw [Save_returned, hid, hits]
      rw [hstored]
    · rw [Save_returned, hid, hits]
      exact assignKeys_lineOf _ _ _
    · rw [Save_returned, hid, hits]
      exact hown
    · rw [hstored, Save_returned, hid, hits]
    · rw [Save_returned]
      exact htot

/-- Replacing the two items of the sample order by three salads at 7 leaves one line and the total 21. -/
theorem ModifyOrder_replaces_items_of_fresh_keys_sample :
    ∃ o : Order Int,
      (database.ModifyOrder sample.store1 2000 1 sample.replaceItemsReq).2 = some o ∧
      database.FetchOrderById (database.ModifyOrder sample.store1 2000 1 sample.replaceItemsReq).1 1 = some o ∧
      o.Items.map lineOf = [("salad", 3, 7)] ∧
      o.TotalAmount = 21 := by
  obtain ⟨o, h1, h2, h3, _, _, h6⟩ :=
    ModifyOrder_replaces_items_of_fresh_keys sample.store1 2000 1 sample.replaceItemsReq
      (preloadItems sample.store1 sample.order1) (by decide) (by decide) (by decide) (by decide)
  exact ⟨o, h1, h2, by rw [h3]; decide, by rw [h6]; decide⟩

/-- C3, evaluated: order 1 of the sample store has two items and order 2 owns the
soup of key 3. An update of order 1 supplies one item, five units at 1 under the
key 3. The order `ModifyOrder` returns has that line and the total 5, but what
the store then holds for order 1 is the soup, one unit at 4, under the total 5:
the supplied line is stored nowhere, and order 2 has lost its item. -/
theorem ModifyOrder_key_clash_keeps_old_line :
    (database.FetchOrderById sample.store2 1).map (fun o => o.Items.map lineOf) =
      some ([("pizza", 2, 10), ("cola", 1, 5)] : List (String × Int × Int)) ∧
    (database.FetchOrderById sample.store2 2).map (fun o => o.Items.map lineOf) =
      some ([("soup", 1, 4)] : List (String × Int × Int)) ∧
    sample.clashReq.Items.map lineOf = ([("stolen", 5, 1)] : List (String × Int × Int)) ∧
    (database.ModifyOrder sample.store2 2000 1 sample.clashReq).2.map
      (fun o => (o.Items.map lineOf, o.TotalAmount)) =
      some (([("stolen", 5, 1)] : List (String × Int × Int)), (5 : Int)) ∧
    (database.FetchOrderById (database.ModifyOrder sample.store2 2000 1 sample.clashReq).1 1).map
      (fun o => (o.Items.map lineOf, o.TotalAmount)) =
      some (([("soup", 1, 4)] : List (String × Int × Int)), (5 : Int)) ∧
    (database.FetchOrderById (database.ModifyOrder sample.store2 2000 1 sample.clashReq).1 2).map
      (fun o => o.Items.map lineOf) = some ([] : List (String × Int × Int)) :=
  ⟨by decide, by decide, by decide, by decide, by decide, by decide⟩

theorem FetchOrderById_eq_some (db : DB F) (id : Nat) (before : Order F)
    (hex : database.FetchOrderById db id = some before) :
    ∃ o0, First db id = some o0 ∧ before = preloadItems db o0 := by
  unfold database.FetchOrderById PreloadFirst at hex
  cases hf : First db id with
  | none => simp [hf] at hex
  | some o0 =>
    rw [hf] at hex
    exact ⟨o0, rfl, by simpa using hex.symm⟩

/-- What `Save` returns and leaves in the store for an order read without its items. -/
theorem Save_without_items (db : DB F) (stamp : Time) (x o0 : Order F)
    (h : First db x.ID = some o0) (hl : x.DeletedAt = none) (hi : x.Items = []) :
    (Save db stamp x).2 = { x with UpdatedAt := stamp, Items := [] } ∧
    database.FetchOrderById (Save db stamp x).1 x.ID =
      some { x with UpdatedAt := stamp, Items := db.order_items.filter (fun it => it.OrderID = x.ID) } := by
  constructor
  · rw [Save_returned, hi]; rfl
  · unfold database.FetchOrderById PreloadFirst
    rw [First_Save db stamp x o0 h hl]
    simp only [Option.map_some', preloadItems, Save_order_items, hi, assignKeys, upsertItems,
      List.foldl_nil]

/-- An update that supplies only notes: the stored order changes in its notes
and its modification time and in nothing else, while the order returned to the
caller comes back without the items. -/
theorem ModifyOrder_notes_only [Zero F] [Add F] [Mul F] [IntCast F]
    (db : DB F) (stamp : Time) (id : Nat) (req : UpdateOrderRequest F) (before : Order F)
    (hex : database.FetchOrderById db id = some before)
    (h1 : req.CustomerName = "") (h2 : req.CustomerAddress = "") (h3 : req.CustomerPhone = "")
    (h4 : req.CustomerEmail = "") (h5 : req.Items = []) (h6 : req.DeliveryPerson = "")
    (h7 : req.DeliveryPhone = "") (h8 : req.EstimatedDelivery = 0) (hn : req.Notes ≠ "") :
    (database.ModifyOrder db stamp id req).2 =
      some { before with Notes := req.Notes, UpdatedAt := stamp, Items := [] } ∧
    database.FetchOrderById (database.ModifyOrder db stamp id req).1 id =
      some { before with Notes := req.Notes, UpdatedAt := stamp } := by
  obtain ⟨o0, hf, rfl⟩ := FetchOrderById_eq_some db id before hex
  obtain ⟨hid, hdel, hits⟩ := First_some db id o0 hf
  have hx : updatedOrder req o0 = { o0 with Notes := req.Notes } := by
    simp [updatedOrder, h1, h2, h3, h4, h5, h6, h7, h8, hn]
  rw [ModifyOrder_found db stamp id req o0 hf, hx]
  simp only [h5, List.length_nil, gt_iff_lt, lt_self_iff_false, if_false]
  have hfirst : First db ({ o0 with Notes := req.Notes } : Order F).ID = some o0 := by
    rw [← hid] at hf; exact hf
  obtain ⟨r1, r2⟩ := Save_without_items db stamp { o0 with Notes := req.Notes } o0 hfirst hdel hits
  refine ⟨by rw [r1]; rfl, ?_⟩
  have : ({ o0 with Notes := req.Notes } : Order F).ID = id := hid
  rw [this] at r2
  rw [r2]
  simp only [preloadItems, hid]

/-- C4, evaluated: the sample order has two items; after an update that supplies
only notes the store still holds it with both items and the new notes, but the
order `ModifyOrder` returns has no items. -/
theorem ModifyOrder_notes_only_returns_no_items :
    (database.FetchOrderById sample.store1 1).map (fun o => o.Items) =
      some [sample.pizza, sample.cola] ∧
    (database.ModifyOrder sample.store1 2000 1 sample.notesOnlyReq).2.map (fun o => o.Items) =
      some [] ∧
    (database.ModifyOrder sample.store1 2000 1 sample.notesOnlyReq).2.map (fun o => o.Notes) =
      some "leave at the door" ∧
    (database.FetchOrderById (database.ModifyOrder sample.store1 2000 1 sample.notesOnlyReq).1 1).map
      (fun o => (o.Items, o.Notes)) = some ([sample.pizza, sample.cola], "leave at the door") := by
  decide

end Updating

/-! ## Changing the status -/

section ChangingStatus

open models gorm

variable {F : Type}

theorem validStatuses_of_unrecognized (s : OrderStatus) (hs : s ∉ recognizedStatuses) :
    (handlers.validStatuses.lookup s).getD false = false := by
  simp only [recognizedStatuses, List.mem_cons, List.mem_singleton, not_or, List.not_mem_nil,
    or_false] at hs
  obtain ⟨h1, h2, h3, h4, h5, h6⟩ := hs
  simp only [handlers.validStatuses, List.lookup, StatusPending, StatusConfirmed, StatusPreparing,
    StatusOutForDelivery, StatusDelivered, StatusCancelled, beq_eq_false_iff_ne.mpr h1,
    beq_eq_false_iff_ne.mpr h2, beq_eq_false_iff_ne.mpr h3, beq_eq_false_iff_ne.mpr h4,
    beq_eq_false_iff_ne.mpr h5, beq_eq_false_iff_ne.mpr h6, Option.getD_none]

theorem validStatuses_of_recognized (s : OrderStatus) (hs : s ∈ recognizedStatuses) :
    (handlers.validStatuses.lookup s).getD false = true ∧ s ≠ "" := by
  simp only [recognizedStatuses, List.mem_cons, List.mem_singleton, List.not_mem_nil,
    or_false] at hs
  rcases hs with rfl | rfl | rfl | rfl | rfl | rfl <;> decide

/-- C5: whatever the store and the id parameter, a status request whose status
is none of pending, confirmed, preparing, out_for_delivery, delivered, cancelled
(the empty string is one such value) is answered 400 with `success` false, and
the store the handler leaves is the store it was given, so every stored status
is what it was. For an id that parses, the message tells the two ways apart: the
binding error for an empty status, "Invalid status" for any other. -/
theorem ChangeOrderStatus_rejects_unrecognized (db : DB F) (stamp : Time) (idParam : String)
    (req : UpdateStatusRequest) (hs : req.Status ∉ recognizedStatuses) :
    (handlers.ChangeOrderStatus db stamp idParam (.ok req)).1 = db ∧
    (handlers.ChangeOrderStatus db stamp idParam (.ok req)).2.code = 400 ∧
    (handlers.ChangeOrderStatus db stamp idParam (.ok req)).2.body.Success = false ∧
    (handlers.ChangeOrderStatus db stamp idParam (.ok req)).2.body.Data = .absent ∧
    (∀ id, strconv.ParseUint idParam 10 32 = .ok id →
      (handlers.ChangeOrderStatus db stamp idParam (.ok req)).2.body.Message =
        if req.Status = "" then "Invalid request: " ++ handlers.requiredStatusError
        else "Invalid status") := by
  have hv := validStatuses_of_unrecognized req.Status hs
  unfold handlers.ChangeOrderStatus
  cases hp : strconv.ParseUint idParam 10 32 with
  | error e => simp [handlers.StatusBadRequest]
  | ok id =>
    by_cases he : req.Status = ""
    · simp [handlers.bindUpdateStatusRequest, he, handlers.StatusBadRequest]
    · simp [handlers.bindUpdateStatusRequest, he, hv, handlers.StatusBadRequest]

/-- The sample store turns down the statuses "shipped" and "" for order 1. -/
theorem ChangeOrderStatus_rejects_unrecognized_witness :
    "shipped" ∉ recognizedStatuses ∧
    (handlers.ChangeOrderStatus sample.store1 2000 "1" (.ok { Status := "shipped", Message := "" })).1 =
      sample.store1 ∧
    (handlers.ChangeOrderStatus sample.store1 2000 "1" (.ok { Status := "shipped", Message := "" })).2.code =
      400 ∧
    (handlers.ChangeOrderStatus sample.store1 2000 "1"
      (.ok { Status := "shipped", Message := "" })).2.body.Success = false := by
  have h := ChangeOrderStatus_rejects_unrecognized sample.store1 2000 "1"
    { Status := "shipped", Message := "" } (by decide)
  exact ⟨by decide, h.1, h.2.1, h.2.2.1⟩

/-- What `ChangeOrderStatus` of the persistence layer returns and leaves in the
store: the stored order changes in its status and its modification time and in
nothing else, while the order returned to the caller comes back without the
items. -/
theorem database_ChangeOrderStatus_found (db : DB F) (stamp : Time) (id : Nat) (s : OrderStatus)
    (before : Order F) (hex : database.FetchOrderById db id = some before) :
    (database.ChangeOrderStatus db stamp id s).2 =
      some { before with Status := s, UpdatedAt := stamp, Items := [] } ∧
    database.FetchOrderById (database.ChangeOrderStatus db stamp id s).1 id =
      some { before with Status := s, UpdatedAt := stamp } := by
  obtain ⟨o0, hf, rfl⟩ := FetchOrderById_eq_some db id before hex
  obtain ⟨hid, hdel, hits⟩ := First_some db id o0 hf
  have hfirst : First db ({ o0 with Status := s } : Order F).ID = some o0 := by
    rw [← hid] at hf; exact hf
  obtain ⟨r1, r2⟩ := Save_without_items db stamp { o0 with Status := s } o0 hfirst hdel hits
  have hunf : database.ChangeOrderStatus db stamp id s =
      ((Save db stamp { o0 with Status := s }).1, some (Save db stamp { o0 with Status := s }).2) := by
    simp only [database.ChangeOrderStatus, hf]
  rw [hunf]
  refine ⟨by rw [r1]; rfl, ?_⟩
  have : ({ o0 with Status := s } : Order F).ID = id := hid
  rw [this] at r2
  rw [r2]
  simp only [preloadItems, hid]

/-- No transition is turned down: for an order the store holds and a recognized
status, the handler answers 200 with the order of the persistence layer. -/
theorem ChangeOrderStatus_accepts_recognized (db : DB F) (stamp : Time) (idParam : String)
    (id : Nat) (req : UpdateStatusRequest) (before : Order F)
    (hid : strconv.ParseUint idParam 10 32 = .ok id)
    (hex : database.FetchOrderById db id = some before)
    (hs : req.Status ∈ recognizedStatuses) :
    handlers.ChangeOrderStatus db stamp idParam (.ok req) =
      ((database.ChangeOrderStatus db stamp id req.Status).1,
        { code := 200
          body := { Success := true, Message := "Order status updated successfully"
                    Data := .order { before with Status := req.Status, UpdatedAt := stamp, Items := [] } } }) := by
  obtain ⟨hv, hne⟩ := validStatuses_of_recognized req.Status hs
  have hret := (database_ChangeOrderStatus_found db stamp id req.Status before hex).1
  unfold handlers.ChangeOrderStatus
  simp only [hid, handlers.bindUpdateStatusRequest, hne, if_false, hv, not_true_eq_false]
  generalize database.ChangeOrderStatus db stamp id req.Status = r at hret ⊢
  obtain ⟨db1, o⟩ := r
  simp only at hret
  subst hret
  rfl

/-- C10, evaluated: the sample order, out for delivery with two items, is set to
`delivered`. The handler answers 200 and the store then holds the order with the
new status and both items, but the order in the answer has no items. -/
theorem ChangeOrderStatus_returns_no_items :
    (database.FetchOrderById sample.store1 1).map (fun o => (o.Status, o.Items)) =
      some ("out_for_delivery", [sample.pizza, sample.cola]) ∧
    (handlers.ChangeOrderStatus sample.store1 2000 "1" (.ok { Status := "delivered", Message := "" })).2 =
      { code := 200
        body := { Success := true, Message := "Order status updated successfully"
                  Data := .order { sample.order1 with Status := "delivered", UpdatedAt := 2000, Items := [] } } } ∧
    (database.FetchOrderById
      (handlers.ChangeOrderStatus sample.store1 2000 "1" (.ok { Status := "delivered", Message := "" })).1 1).map
      (fun o => (o.Status, o.Items)) = some ("delivered", [sample.pizza, sample.cola]) := by
  refine ⟨by decide, ?_, ?_⟩
  · rw [ChangeOrderStatus_accepts_recognized sample.store1 2000 "1" 1 _
      (preloadItems sample.store1 sample.order1) rfl (by decide) (by decide)]
    decide
  · rw [ChangeOrderStatus_accepts_recognized sample.store1 2000 "1" 1 _
      (preloadItems sample.store1 sample.order1) rfl (by decide) (by decide)]
    decide

end ChangingStatus

/-! ## Statistics -/

section Statistics

open models gorm

variable {F : Type}

theorem PreloadFind_status (db : DB F) (s : OrderStatus) :
    ((PreloadFind db).filter (fun o => o.Status = s)).length = CountWhereStatus db s := by
  unfold PreloadFind CountWhereStatus
  rw [List.filter_map, List.length_map]
  rfl

theorem PreloadFind_totals (db : DB F) :
    (PreloadFind db).map (fun o => o.TotalAmount) = (liveOrders db).map (fun r => r.TotalAmount) := by
  unfold PreloadFind
  rw [List.map_map]
  rfl

theorem sqlSum_getD [Zero F] [Add F] (xs : List F) : (sqlSum xs).getD 0 = columnSum xs := by
  cases xs with
  | nil => rfl
  | cons x xs =>
    simp only [sqlSum, columnSum, Option.getD_some]
    generalize x = acc
    induction xs generalizing acc with
    | nil => rfl
    | cons y ys ih => exact ih (acc + y)

/-- Where addition is that of a commutative monoid, `columnSum` is the sum of the list. -/
theorem columnSum_eq_sum {M : Type} [AddCommMonoid M] (xs : List M) : columnSum xs = xs.sum := by
  cases xs with
  | nil => rfl
  | cons x xs => simp [columnSum, sumFrom_eq_sum]

/-- C6: with the orders of the store being those `FetchAllOrders` lists,
`FetchStatistics` returns their number, the number of them with status pending,
the number with status delivered, and the sum of their total amounts, the sum
being `0` when there is no order. -/
theorem FetchStatistics_counts_and_revenue [Zero F] [Add F] (db : DB F) :
    (database.FetchStatistics db).TotalOrders = (database.FetchAllOrders db).length ∧
    (database.FetchStatistics db).PendingOrders =
      ((database.FetchAllOrders db).filter (fun o => o.Status = "pending")).length ∧
    (database.FetchStatistics db).DeliveredOrders =
      ((database.FetchAllOrders db).filter (fun o => o.Status = "delivered")).length ∧
    (database.FetchStatistics db).TotalRevenue =
      columnSum ((database.FetchAllOrders db).map (fun o => o.TotalAmount)) ∧
    columnSum ([] : List F) = 0 := by
  refine ⟨?_, ?_, ?_, ?_, rfl⟩
  · simp [database.FetchStatistics, database.FetchAllOrders, Count, PreloadFind]
  · exact (PreloadFind_status db "pending").symm
  · exact (PreloadFind_status db "delivered").symm
  · show SumTotalAmount db = _
    unfold SumTotalAmount database.FetchAllOrders
    rw [PreloadFind_totals, sqlSum_getD]

/-- Three orders, two pending and one delivered, of amounts 10, 20 and 30, give 3, 2, 1 and 60. -/
theorem FetchStatistics_counts_and_revenue_witness :
    database.FetchStatistics sample.store3 =
      { TotalOrders := 3, PendingOrders := 2, DeliveredOrders := 1, TotalRevenue := 60 } ∧
    database.FetchStatistics ({ orders := [], order_items := [], nextOrderID := 1, nextItemID := 1 } : DB Int) =
      { TotalOrders := 0, PendingOrders := 0, DeliveredOrders := 0, TotalRevenue := 0 } := by
  have h := FetchStatistics_counts_and_revenue sample.store3
  refine ⟨?_, by decide⟩
  have e : database.FetchStatistics sample.store3 =
      { TotalOrders := (database.FetchStatistics sample.store3).TotalOrders
        PendingOrders := (database.FetchStatistics sample.store3).PendingOrders
        DeliveredOrders := (database.FetchStatistics sample.store3).DeliveredOrders
        TotalRevenue := (database.FetchStatistics sample.store3).TotalRevenue } := rfl
  rw [e, h.1, h.2.1, h.2.2.1, h.2.2.2.1]
  decide

end Statistics

/-! ## Listing the orders -/

section Listing

open models gorm

variable {F : Type} {α : Type}

theorem insertBack_perm (less : α → α → Bool) (x : α) (l : List α) :
    (sort.insertBack less x l).Perm (x :: l) := by
  induction l with
  | nil => exact List.Perm.refl _
  | cons y ys ih =>
    unfold sort.insertBack
    by_cases h : less x y = true
    · rw [if_pos h]
      exact ((List.Perm.cons y ih).trans (List.Perm.swap x y ys))
    · rw [if_neg h]

theorem foldl_insertBack_perm (less : α → α → Bool) (xs acc : List α) :
    (xs.foldl (fun acc x => sort.insertBack less x acc) acc).Perm (xs ++ acc) := by
  induction xs generalizing acc with
  | nil => exact List.Perm.refl _
  | cons x xs ih =>
    simp only [List.foldl_cons, List.cons_append]
    refine (ih _).trans ?_
    refine (List.Perm.append_left xs (insertBack_perm less x acc)).trans ?_
    exact List.perm_middle

theorem Slice_perm (less : α → α → Bool) (xs : List α) : (sort.Slice less xs).Perm xs := by
  unfold sort.Slice
  refine (List.reverse_perm _).trans ?_
  simpa using foldl_insertBack_perm less xs []

theorem insertBack_mem (less : α → α → Bool) (x z : α) (l : List α)
    (hz : z ∈ sort.insertBack less x l) : z = x ∨ z ∈ l := by
  have := (insertBack_perm less x l).mem_iff.mp hz
  simpa using this

/-- The held part stays in non-decreasing order of the key when `less` compares keys. -/
theorem insertBack_sorted (key : α → Int) (x : α) (l : List α)
    (hl : l.Pairwise (fun a b => key a ≤ key b)) :
    (sort.insertBack (fun a b => decide (key a > key b)) x l).Pairwise (fun a b => key a ≤ key b) := by
  induction l with
  | nil => simp [sort.insertBack]
  | cons y ys ih =>
    unfold sort.insertBack
    rw [List.pairwise_cons] at hl
    by_cases h : key x > key y
    · simp only [h, decide_True, if_true]
      rw [List.pairwise_cons]
      refine ⟨?_, ih hl.2⟩
      intro z hz
      rcases insertBack_mem _ x z ys hz with rfl | hz
      · exact le_of_lt h
      · exact hl.1 z hz
    · simp only [h, decide_False, Bool.false_eq_true, if_false]
      have hxy : key x ≤ key y := not_lt.mp h
      rw [List.pairwise_cons, List.pairwise_cons]
      refine ⟨?_, hl.1, hl.2⟩
      intro z hz
      rcases List.mem_cons.mp hz with rfl | hz
      · exact hxy
      · exact le_trans hxy (hl.1 z hz)

theorem foldl_insertBack_sorted (key : α → Int) (xs acc : List α)
    (hacc : acc.Pairwise (fun a b => key a ≤ key b)) :
    (xs.foldl (fun acc x => sort.insertBack (fun a b => decide (key a > key b)) x acc) acc).Pairwise
      (fun a b => key a ≤ key b) := by
  induction xs generalizing acc with
  | nil => exact hacc
  | cons x xs ih => exact ih _ (insertBack_sorted key x acc hacc)

theorem Slice_sorted (key : α → Int) (xs : List α) :
    (sort.Slice (fun a b => decide (key a > key b)) xs).Pairwise (fun a b => key b ≤ key a) := by
  unfold sort.Slice
  rw [List.pairwise_reverse]
  exact foldl_insertBack_sorted key xs [] List.Pairwise.nil

/-- C7: the handler `FetchAllOrders` answers 200 with a list that is a
permutation of the orders the persistence layer returns, whatever order they are
stored in, and in which creation times never increase: for positions `i < j` the
order at `i` was not created before the order at `j`. The store is left as it
was. -/
theorem FetchAllOrders_newest_first (db : DB F) :
    ∃ l : List (Order F),
      handlers.FetchAllOrders db =
        (db, { code := 200
               body := { Success := true, Message := "Orders retrieved successfully", Data := .orders l } }) ∧
      l.Perm (database.FetchAllOrders db) ∧
      l.Pairwise (fun a b => b.CreatedAt ≤ a.CreatedAt) ∧
      ∀ (i j : Nat) (hij : i < j) (hj : j < l.length),
        (l.get ⟨j, hj⟩).CreatedAt ≤ (l.get ⟨i, lt_trans hij hj⟩).CreatedAt := by
  refine ⟨_, rfl, Slice_perm _ _, Slice_sorted (fun o : Order F => o.CreatedAt) _, ?_⟩
  intro i j hij hj
  have hs := Slice_sorted (fun o : Order F => o.CreatedAt) (database.FetchAllOrders db)
  exact List.pairwise_iff_get.mp hs ⟨i, lt_trans hij hj⟩ ⟨j, hj⟩ hij

/-- The three sample orders, stored with creation times 200, 100, 300, are listed 300, 200, 100. -/
theorem FetchAllOrders_newest_first_witness :
    ∃ l : List (Order Int),
      (handlers.FetchAllOrders sample.store3).2.body.Data = .orders l ∧
      l.map (fun o => (o.ID, o.CreatedAt)) = [(3, 300), (1, 200), (2, 100)] ∧
      l.Perm (database.FetchAllOrders sample.store3) := by
  obtain ⟨l, h1, h2, _, _⟩ := FetchAllOrders_newest_first sample.store3
  refine ⟨l, by rw [h1], ?_, h2⟩
  have : handlers.FetchAllOrders sample.store3 =
      (sample.store3, { code := 200
                        body := { Success := true, Message := "Orders retrieved successfully"
                                  Data := .orders [sample.plainOrder 3 300 "pending" 30,
                                    sample.plainOrder 1 200 "pending" 10,
                                    sample.plainOrder 2 100 "delivered" 20] } }) := by decide
  rw [this] at h1
  injection h1 with _ h1
  injection h1 with _ h1
  injection h1 with _ _ h1
  injection h1 with h1
  subst h1
  decide

end Listing

/-! ## Fetching one order -/

section Fetching

open models gorm

variable {F : Type}

/-- The number a digit string denotes when read onto the accumulator `n`. -/
theorem decimalFrom_ge (cs : List Char) (n : Nat) :
    n ≤ cs.foldl (fun n c => 10 * n + (c.toNat - 48)) n := by
  induction cs generalizing n with
  | nil => exact le_refl _
  | cons c cs ih =>
    simp only [List.foldl_cons]
    exact le_trans (by omega) (ih _)

theorem parseUintLoop_ok_iff (cs : List Char) (n v : Nat) (hn : n ≤ 2 ^ 32 - 1) :
    strconv.parseUintLoop 10 (strconv.maxUint64 / 10 + 1) (2 ^ 32 - 1) cs n = .ok v ↔
      (∀ c ∈ cs, 48 ≤ c.toNat ∧ c.toNat ≤ 57) ∧
      cs.foldl (fun n c => 10 * n + (c.toNat - 48)) n = v ∧ v ≤ 2 ^ 32 - 1 := by
  induction cs generalizing n with
  | nil =>
    simp only [strconv.parseUintLoop, Except.ok.injEq, List.not_mem_nil, false_implies, implies_true,
      List.foldl_nil, true_and]
    constructor
    · rintro rfl; exact ⟨rfl, hn⟩
    · rintro ⟨rfl, _⟩; rfl
  | cons c cs ih =>
    have hcut : strconv.maxUint64 / 10 + 1 = 1844674407370955162 := by decide
    have hmax : (2 : Nat) ^ 32 - 1 = 4294967295 := by norm_num
    have h64 : (2 : Nat) ^ 64 = 18446744073709551616 := by norm_num
    rw [hmax] at hn
    by_cases hd : 48 ≤ c.toNat ∧ c.toNat ≤ 57
    · have hstep : strconv.parseUintLoop 10 (strconv.maxUint64 / 10 + 1) (2 ^ 32 - 1) (c :: cs) n =
          if 10 * n + (c.toNat - 48) > 2 ^ 32 - 1 then .error .ErrRange
          else strconv.parseUintLoop 10 (strconv.maxUint64 / 10 + 1) (2 ^ 32 - 1) cs
            (10 * n + (c.toNat - 48)) := by
        have e1 : (n * 10) % 2 ^ 64 = 10 * n := by
          rw [h64]; omega
        have e2 : (10 * n + (c.toNat - 48)) % 2 ^ 64 = 10 * n + (c.toNat - 48) := by
          rw [h64]; omega
        have e3 : ¬ (c.toNat - 48 ≥ 10) := by omega
        have e4 : ¬ (n ≥ strconv.maxUint64 / 10 + 1) := by rw [hcut]; omega
        have e5 : ¬ (10 * n + (c.toNat - 48) < 10 * n) := by omega
        simp only [strconv.parseUintLoop, hd, and_self, if_true, e3, if_false, e4, e1, e2, e5, false_or]
      rw [hstep]
      by_cases hov : 10 * n + (c.toNat - 48) > 2 ^ 32 - 1
      · rw [if_pos hov]
        constructor
        · intro h; cases h
        · rintro ⟨_, hval, hle⟩
          exfalso
          simp only [List.foldl_cons] at hval
          have := decimalFrom_ge cs (10 * n + (c.toNat - 48))
          omega
      · rw [if_neg hov, ih _ (by omega)]
        simp only [List.mem_cons, forall_eq_or_imp, hd, and_self, true_and, List.foldl_cons]
    · have hstep : strconv.parseUintLoop 10 (strconv.maxUint64 / 10 + 1) (2 ^ 32 - 1) (c :: cs) n =
          .error .ErrSyntax := by
        by_cases hl : 97 ≤ strconv.lower c.toNat ∧ strconv.lower c.toNat ≤ 122
        · have e3 : strconv.lower c.toNat - 97 + 10 ≥ 10 := by omega
          simp only [strconv.parseUintLoop, hd, if_false, hl, and_self, if_true, e3]
        · simp only [strconv.parseUintLoop, hd, if_false, hl]
      rw [hstep]
      constructor
      · intro h; cases h
      · rintro ⟨hall, _⟩
        exact absurd (hall c (List.mem_cons_self c cs)) hd

/-- The call `ParseUint(s, 10, 32)` succeeds on the base-10 unsigned integers
that fit in 32 bits, with their value, and on nothing else. -/
theorem ParseUint_ok_iff (s : String) (v : Nat) :
    strconv.ParseUint s 10 32 = .ok v ↔ IsUint32Decimal s ∧ decimalValue s.data = v := by
  unfold strconv.ParseUint IsUint32Decimal decimalValue
  by_cases he : s.data = []
  · simp [he]
  · rw [if_neg he, parseUintLoop_ok_iff s.data 0 v (by norm_num)]
    have hmax : (2 : Nat) ^ 32 - 1 = 4294967295 := by norm_num
    have h32 : (2 : Nat) ^ 32 = 4294967296 := by norm_num
    rw [hmax, h32]
    constructor
    · rintro ⟨h1, h2, h3⟩
      exact ⟨⟨he, h1, by omega⟩, h2⟩
    · rintro ⟨⟨_, h1, h3⟩, h2⟩
      exact ⟨h1, h2, by omega⟩

theorem ParseUint_error_iff (s : String) :
    (∃ e, strconv.ParseUint s 10 32 = .error e) ↔ ¬ IsUint32Decimal s := by
  constructor
  · rintro ⟨e, he⟩ hv
    have := (ParseUint_ok_iff s (decimalValue s.data)).mpr ⟨hv, rfl⟩
    rw [he] at this
    cases this
  · intro hv
    cases hp : strconv.ParseUint s 10 32 with
    | error e => exact ⟨e, rfl⟩
    | ok v => exact absurd ((ParseUint_ok_iff s v).mp hp).1 hv

theorem FetchOrderById_none_iff (db : DB F) (id : Nat) :
    database.FetchOrderById db id = none ↔ ∀ r ∈ liveOrders db, r.ID ≠ id := by
  unfold database.FetchOrderById PreloadFirst First
  simp [List.find?_eq_none]

theorem handler_FetchOrderById_malformed (db : DB F) (idParam : String)
    (hv : ¬ IsUint32Decimal idParam) :
    handlers.FetchOrderById db idParam =
      (db, { code := 400, body := { Success := false, Message := "Invalid order ID", Data := .absent } }) := by
  obtain ⟨e, he⟩ := (ParseUint_error_iff idParam).mpr hv
  simp only [handlers.FetchOrderById, he, handlers.StatusBadRequest]

theorem handler_FetchOrderById_missing (db : DB F) (idParam : String)
    (hv : IsUint32Decimal idParam)
    (hno : database.FetchOrderById db (decimalValue idParam.data) = none) :
    handlers.FetchOrderById db idParam =
      (db, { code := 404, body := { Success := false, Message := "Order not found", Data := .absent } }) := by
  have hp := (ParseUint_ok_iff idParam _).mpr ⟨hv, rfl⟩
  simp only [handlers.FetchOrderById, hp, hno, handlers.StatusNotFound]

theorem handler_FetchOrderById_found (db : DB F) (idParam : String) (o : Order F)
    (hv : IsUint32Decimal idParam)
    (ho : database.FetchOrderById db (decimalValue idParam.data) = some o) :
    handlers.FetchOrderById db idParam =
      (db, { code := 200
             body := { Success := true, Message := "Order retrieved successfully", Data := .order o } }) := by
  have hp := (ParseUint_ok_iff idParam _).mpr ⟨hv, rfl⟩
  simp only [handlers.FetchOrderById, hp, ho, handlers.StatusOK]

/-- C9: the handler `FetchOrderById` never changes the store. It answers 400
with `success` false exactly when the id parameter is not a base-10 unsigned
integer fitting in 32 bits; 404 with `success` false exactly when the parameter is
one and no order of the store has the id it denotes; and otherwise 200 with
`success` true and as data the order of that id with its items. -/
theorem FetchOrderById_responses (db : DB F) (idParam : String) :
    (handlers.FetchOrderById db idParam).1 = db ∧
    ((handlers.FetchOrderById db idParam).2.code = 400 ↔ ¬ IsUint32Decimal idParam) ∧
    ((handlers.FetchOrderById db idParam).2.code = 404 ↔
      IsUint32Decimal idParam ∧ ∀ r ∈ liveOrders db, r.ID ≠ decimalValue idParam.data) ∧
    ((handlers.FetchOrderById db idParam).2.code = 200 ↔
      IsUint32Decimal idParam ∧ ∃ r ∈ liveOrders db, r.ID = decimalValue idParam.data) ∧
    ((handlers.FetchOrderById db idParam).2.code = 400 ∨
      (handlers.FetchOrderById db idParam).2.code = 404 →
        (handlers.FetchOrderById db idParam).2.body.Success = false ∧
        (handlers.FetchOrderById db idParam).2.body.Data = .absent) ∧
    ((handlers.FetchOrderById db idParam).2.code = 200 →
      (handlers.FetchOrderById db idParam).2.body.Success = true ∧
      ∃ o : Order F, o.ID = decimalValue idParam.data ∧
        database.FetchOrderById db (decimalValue idParam.data) = some o ∧
        (handlers.FetchOrderById db idParam).2.body.Data = .order o) := by
  by_cases hv : IsUint32Decimal idParam
  · cases ho : database.FetchOrderById db (decimalValue idParam.data) with
    | none =>
      have hno := (FetchOrderById_none_iff db _).mp ho
      rw [handler_FetchOrderById_missing db idParam hv ho]
      refine ⟨rfl, ?_, ?_, ?_, ?_, ?_⟩
      · simp [hv]
      · simp only [true_iff]; exact ⟨hv, hno⟩
      · refine ⟨fun h => absurd h (by simp), ?_⟩
        rintro ⟨_, r, hr, he⟩
        exact absurd he (hno r hr)
      · intro _; exact ⟨rfl, rfl⟩
      · intro h; simp at h
    | some o =>
      obtain ⟨o0, hf, rfl⟩ := FetchOrderById_eq_some db _ o ho
      obtain ⟨hid, _, _⟩ := First_some db _ o0 hf
      have hex : ∃ r ∈ liveOrders db, r.ID = decimalValue idParam.data := by
        by_contra hcon
        have : database.FetchOrderById db (decimalValue idParam.data) = none :=
          (FetchOrderById_none_iff db _).mpr (fun r hr he => hcon ⟨r, hr, he⟩)
        rw [ho] at this
        cases this
      rw [handler_FetchOrderById_found db idParam _ hv ho]
      refine ⟨rfl, ?_, ?_, ?_, ?_, ?_⟩
      · simp [hv]
      · refine ⟨fun h => absurd h (by simp), ?_⟩
        rintro ⟨_, hall⟩
        obtain ⟨r, hr, he⟩ := hex
        exact absurd he (hall r hr)
      · simp only [true_iff]; exact ⟨hv, hex⟩
      · intro h; simp at h
      · intro _; exact ⟨rfl, preloadItems db o0, hid, rfl, rfl⟩
  · rw [handler_FetchOrderById_malformed db idParam hv]
    refine ⟨rfl, ?_, ?_, ?_, ?_, ?_⟩
    · simp [hv]
    · simp [hv]
    · simp [hv]
    · intro _; exact ⟨rfl, rfl⟩
    · intro h; simp at h

/-- On the sample store: a word, a signed number and a number of 33 bits get
400, an absent id gets 404, and the id of the sample order gets 200 with the
order and its two items. -/
theorem FetchOrderById_responses_witness :
    (handlers.FetchOrderById sample.store1 "abc").2.code = 400 ∧
    (handlers.FetchOrderById sample.store1 "+1").2.code = 400 ∧
    (handlers.FetchOrderById sample.store1 "").2.code = 400 ∧
    (handlers.FetchOrderById sample.store1 "4294967296").2.code = 400 ∧
    (handlers.FetchOrderById sample.store1 "4294967295").2.code = 404 ∧
    handlers.FetchOrderById sample.store1 "001" =
      (sample.store1,
        { code := 200
          body := { Success := true, Message := "Order retrieved successfully"
                    Data := .order { sample.order1 with Items := [sample.pizza, sample.cola] } } }) ∧
    ¬ IsUint32Decimal "abc" := by
  refine ⟨by decide, by decide, by decide, by decide, by decide, by decide, ?_⟩
  exact ((FetchOrderById_responses sample.store1 "abc").2.1).mp (by decide)

end Fetching

end OrderDelivery
